import Mathlib

/-!
Verification of the grounding-validation and semantic-chunking core of the
nlp-live-rag repository.

The embedding below translates, from the source:

* `demo/hallucination_prevention.py` — class `HallucinationPrevention` with
  `detect_hallucination` (lexical overlap on `\b\w+\b` word sets of the
  lowercased texts), `cosine_similarity_check`
  (`sklearn.metrics.pairwise.cosine_similarity` on two vectors against the
  0.7 threshold), `layered_detection`, `prevent_hallucination` and
  `regenerate_text`.
* `demo/semantic_chunking.py` — class `SemanticChunking` with `chunk_text`
  (greedy size-bounded grouping of the tokenizer's sentences) and
  `get_semantic_chunks` (TF-IDF vectorization of the Stage-A chunks, the
  pairwise cosine-similarity matrix, and the `i == 0 or
  np.max(cosine_sim[i-1]) < 0.5` retention loop).

Modelling conventions:

* Python floats are idealized as real numbers, so the numeric parts of the
  development are `noncomputable`; everything discrete (word extraction,
  chunk grouping, vocabularies) is executable.
* `nltk.sent_tokenize` is an external collaborator (spec section 1); the
  chunking operations are therefore embedded as functions of the sentence
  sequence it produces, and a Document is represented by that sentence list.
* Python `ValueError` exceptions raised by the sklearn calls are modelled as
  `Except` errors; the constructors are named after the actual sklearn
  failure modes (`zeroFeatures`, `dimensionMismatch`, `emptyVocabulary`).
* `sklearn.metrics.pairwise.cosine_similarity` l2-normalizes each input row,
  mapping a zero row to itself (a zero norm is replaced by 1), and then takes
  dot products; `nrmFactor` and `cosSim` reproduce exactly that, so a pair of
  zero vectors silently gets similarity 0.0 rather than an error.
* `TfidfVectorizer` (default settings) lowercases, tokenizes on the
  `\w\w+` pattern (maximal word-character runs of length at least two),
  uses smoothed idf `ln((1+n)/(1+df)) + 1` and l2-normalizes each row; it
  raises `ValueError` when the fitted vocabulary is empty (in particular on
  an empty document list).  The ASCII fragment of the Unicode `\w` class is
  used for word characters.
-/

namespace NlpRag

/-! ## Lexical overlap checker (`HallucinationPrevention.detect_hallucination`) -/

/-- A word character of the regex class `\w` (ASCII fragment):
alphanumeric or underscore. -/
def isWordChar (c : Char) : Bool := c.isAlphanum || c = '_'

/-- Accumulator-style extraction of the maximal word-character runs of a
character list, i.e. the matches of `\b\w+\b`.  `cur` holds the current run
in reverse. -/
def wordsAux : List Char → List Char → List String
  | cur, [] => if cur.isEmpty then [] else [String.mk cur.reverse]
  | cur, c :: rest =>
    if isWordChar c then wordsAux (c :: cur) rest
    else if cur.isEmpty then wordsAux [] rest
    else String.mk cur.reverse :: wordsAux [] rest

/-- `re.findall(r'\b\w+\b', s.lower())`: the word tokens of the lowercased
text, in order (lowercasing is per character, as `str.lower` is on the
ASCII fragment). -/
def words (s : String) : List String := wordsAux [] (s.toList.map Char.toLower)

/-- The word set of a text: `set(re.findall(r'\b\w+\b', s.lower()))`. -/
def wordSet (s : String) : Finset String := (words s).toFinset

/-- `hallucinated_words = generated_words - keywords`: the words of the
generated text that the reference text does not contain.  The source logs
this set as the diagnostic payload when it is non-empty. -/
def hallucinated_words (generated_text reference_text : String) : Finset String :=
  wordSet generated_text \ wordSet reference_text

/-- `HallucinationPrevention.detect_hallucination`: report a hallucination
exactly when `hallucinated_words` is non-empty. -/
def detect_hallucination (generated_text reference_text : String) : Bool :=
  if hallucinated_words generated_text reference_text ≠ ∅ then true else false

/-! ## Embedding similarity checker (`cosine_similarity_check`) -/

/-- Dot product of two real vectors (trailing entries of the longer vector
are ignored, as by `zip`). -/
noncomputable def dot (a b : List ℝ) : ℝ := (List.zipWith (fun x y => x * y) a b).sum

/-- Euclidean norm of a vector. -/
noncomputable def normOf (a : List ℝ) : ℝ := Real.sqrt (dot a a)

/-- The divisor sklearn's row normalization uses: the norm, except that a
zero norm is replaced by `1` (`sklearn.preprocessing.normalize` leaves zero
rows unchanged instead of dividing by zero). -/
noncomputable def nrmFactor (a : List ℝ) : ℝ := if normOf a = 0 then 1 else normOf a

/-- `sklearn.metrics.pairwise.cosine_similarity` of two single rows:
normalize each row (zero rows stay zero) and take the dot product.  For
non-degenerate vectors this is `dot a b / (normOf a * normOf b)`. -/
noncomputable def cosSim (a b : List ℝ) : ℝ := dot a b / (nrmFactor a * nrmFactor b)

/-- The `ValueError`s raised by the sklearn pairwise machinery:
`check_array` rejects a row with zero features, and `check_pairwise_arrays`
rejects rows of incompatible dimension. -/
inductive SkErr where
  | zeroFeatures : SkErr
  | dimensionMismatch : SkErr
deriving DecidableEq

/-- `HallucinationPrevention.cosine_similarity_check`: compute the sklearn
cosine similarity of the two embeddings and report a hallucination when it
is below the 0.7 threshold.  The sklearn input validation raises
(modelled as `Except.error`) on an empty vector or mismatched lengths. -/
noncomputable def cosine_similarity_check (generated_embedding reference_embedding : List ℝ) :
    Except SkErr Bool :=
  if generated_embedding.isEmpty then .error .zeroFeatures
  else if reference_embedding.isEmpty then .error .zeroFeatures
  else if generated_embedding.length ≠ reference_embedding.length then
    .error .dimensionMismatch
  else .ok (if cosSim generated_embedding reference_embedding < 0.7 then true else false)

/-! ## Layered validator and prevention (`layered_detection`, `prevent_hallucination`) -/

/-- `HallucinationPrevention.layered_detection`: run the lexical check
first; when it reports a hallucination return `True` at once, otherwise the
result is exactly the embedding check's result (and any exception it raises
propagates). -/
noncomputable def layered_detection (generated_text reference_text : String)
    (generated_embedding reference_embedding : List ℝ) : Except SkErr Bool :=
  if detect_hallucination generated_text reference_text then Except.ok true
  else cosine_similarity_check generated_embedding reference_embedding

/-- Number of times `layered_detection` invokes `cosine_similarity_check`
on the given inputs, read off the control flow of the source: the call is
reached exactly when the lexical stage passes. -/
def layered_embedCalls (generated_text reference_text : String)
    (generated_embedding reference_embedding : List ℝ) : Nat :=
  if detect_hallucination generated_text reference_text then 0 else 1

/-- `HallucinationPrevention.regenerate_text`: the demo regeneration
strategy returns the reference text itself. -/
def regenerate_text (reference_text : String) : String := reference_text

/-- `HallucinationPrevention.prevent_hallucination`: on a hallucination
verdict return one regeneration of the text, otherwise return the generated
text unchanged; an exception from the layered detection propagates. -/
noncomputable def prevent_hallucination (generated_text reference_text : String)
    (generated_embedding reference_embedding : List ℝ) : Except SkErr String :=
  match layered_detection generated_text reference_text
      generated_embedding reference_embedding with
  | .error e => .error e
  | .ok true => .ok (regenerate_text reference_text)
  | .ok false => .ok generated_text

/-- Number of times `prevent_hallucination` invokes `regenerate_text` on the
given inputs, read off the control flow of the source: the call is reached
exactly when `layered_detection` returns `True`. -/
noncomputable def prevent_regenCalls (generated_text reference_text : String)
    (generated_embedding reference_embedding : List ℝ) : Nat :=
  match layered_detection generated_text reference_text
      generated_embedding reference_embedding with
  | .ok true => 1
  | _ => 0

/-! ## Stage A: size-bounded grouping (`SemanticChunking.chunk_text`) -/

/-- `' '.join(current_chunk)`. -/
def joinSp : List String → String
  | [] => ""
  | [s] => s
  | s :: rest => s ++ " " ++ joinSp rest

/-- The sentence loop of `SemanticChunking.chunk_text`: append each sentence
to the accumulator, emit the joined accumulator once its length reaches
`min_chunk_size`, and emit a final non-empty accumulator after the last
sentence. -/
def chunkLoop (minSize : Nat) : List String → List String → List String
  | acc, [] => if acc.isEmpty then [] else [joinSp acc]
  | acc, s :: rest =>
    if minSize ≤ (joinSp (acc ++ [s])).length then
      joinSp (acc ++ [s]) :: chunkLoop minSize [] rest
    else chunkLoop minSize (acc ++ [s]) rest

/-- `SemanticChunking.chunk_text`, as a function of the sentence sequence
produced by the external `nltk.sent_tokenize`. -/
def chunk_text (minSize : Nat) (sentences : List String) : List String :=
  chunkLoop minSize [] sentences

/-! ## Stage B: TF-IDF coherence filtering (`SemanticChunking.get_semantic_chunks`) -/

/-- The tokens `TfidfVectorizer` extracts from one document: the lowercased
maximal word-character runs of length at least two
(token pattern `\w\w+`, ASCII fragment). -/
def tokens (d : String) : List String := (words d).filter (fun w => 2 ≤ w.length)

/-- The fitted vocabulary: the distinct tokens occurring in the document
list.  (sklearn additionally sorts the vocabulary; the column order does not
affect dot products or norms, hence not the cosine-similarity matrix.) -/
def vocabulary (docs : List String) : List String := (docs.map tokens).flatten.dedup

/-- Document frequency of a term: the number of documents containing it. -/
def df (docs : List String) (t : String) : Nat :=
  docs.countP (fun d => decide (t ∈ tokens d))

/-- Smoothed inverse document frequency, sklearn's default:
`ln((1 + n) / (1 + df)) + 1`. -/
noncomputable def idf (docs : List String) (t : String) : ℝ :=
  Real.log ((1 + (docs.length : ℝ)) / (1 + (df docs t : ℝ))) + 1

/-- The raw (un-normalized) TF-IDF row of one document: term count times
idf, over the vocabulary columns. -/
noncomputable def tfidfRaw (docs : List String) (d : String) : List ℝ :=
  (vocabulary docs).map (fun t => ((tokens d).count t : ℝ) * idf docs t)

/-- sklearn's l2 row normalization (`norm='l2'`): divide each entry by the
row norm, leaving zero rows unchanged. -/
noncomputable def l2normalize (v : List ℝ) : List ℝ := v.map (fun x => x / nrmFactor v)

/-- The TF-IDF matrix `vectorizer.fit_transform(chunks)` produces on a
non-empty vocabulary: one l2-normalized row per document, columns indexed by
the jointly fitted vocabulary. -/
noncomputable def tfidfRows (docs : List String) : List (List ℝ) :=
  docs.map (fun d => l2normalize (tfidfRaw docs d))

/-- The `ValueError` raised by `TfidfVectorizer.fit_transform` when the
fitted vocabulary is empty (in particular on an empty document list). -/
inductive VErr where
  | emptyVocabulary : VErr
deriving DecidableEq

/-- `vectorizer.fit_transform(chunks)`: the TF-IDF matrix, or the
empty-vocabulary `ValueError`. -/
noncomputable def fit_transform (docs : List String) : Except VErr (List (List ℝ)) :=
  if vocabulary docs = [] then .error .emptyVocabulary else .ok (tfidfRows docs)

/-- `cosine_similarity(tfidf_matrix)`: the full pairwise matrix of sklearn
cosine similarities of the rows. -/
noncomputable def cosineMatrix (m : List (List ℝ)) : List (List ℝ) :=
  m.map (fun v => m.map (fun w => cosSim v w))

/-- `np.max` of a (non-empty) row. -/
noncomputable def npMax (l : List ℝ) : ℝ := l.foldl max (l.headD 0)

/-- The retention loop of `get_semantic_chunks`: walking the chunks with
their enumeration index, keep chunk `i` exactly when `i == 0` or
`np.max(cosine_sim[i-1]) < 0.5`. -/
noncomputable def semanticFilter (sim : List (List ℝ)) : Nat → List String → List String
  | _, [] => []
  | i, c :: cs =>
    if i = 0 ∨ npMax (sim.getD (i - 1) []) < 0.5 then c :: semanticFilter sim (i + 1) cs
    else semanticFilter sim (i + 1) cs

/-- `SemanticChunking.get_semantic_chunks`, as a function of the sentence
sequence: Stage-A chunking, joint TF-IDF fit, pairwise cosine matrix, then
the retention loop.  The vectorizer's exception propagates. -/
noncomputable def get_semantic_chunks (minSize : Nat) (sentences : List String) :
    Except VErr (List String) :=
  match fit_transform (chunk_text minSize sentences) with
  | .error e => .error e
  | .ok m => .ok (semanticFilter (cosineMatrix m) 0 (chunk_text minSize sentences))

/-! ## Theorems: lexical checker and validator orchestration -/

lemma wordSet_empty : wordSet "" = ∅ := rfl

lemma detect_hallucination_eq_true_iff (gt rt : String) :
    detect_hallucination gt rt = true ↔ hallucinated_words gt rt ≠ ∅ := by
  unfold detect_hallucination
  split <;> simp_all

/-- C4: the Lexical Overlap Checker lowercases both texts, extracts their
alphanumeric word sets, reports a hallucination exactly when the set
difference of generated words minus reference words is non-empty (logging
that difference as the diagnostic payload), returns no hallucination
whenever the generated word set is contained in the reference word set, and
against an empty reference text the unsupported set is the full generated
word set. -/
theorem C4_lexical_overlap_checker (gt rt : String) :
    (detect_hallucination gt rt = true ↔ hallucinated_words gt rt ≠ ∅) ∧
    hallucinated_words gt rt = wordSet gt \ wordSet rt ∧
    (wordSet gt ⊆ wordSet rt → detect_hallucination gt rt = false) ∧
    hallucinated_words gt "" = wordSet gt := by
  refine ⟨detect_hallucination_eq_true_iff gt rt, rfl, ?_, ?_⟩
  · intro hsub
    unfold detect_hallucination
    rw [if_neg]
    simp only [ne_eq, not_not]
    exact Finset.sdiff_eq_empty_iff_subset.mpr hsub
  · unfold hallucinated_words
    rw [wordSet_empty, Finset.sdiff_empty]

/-- C4 witness: the superset law at the scenario-1 style concrete pair. -/
theorem C4_lexical_overlap_checker_witness :
    wordSet "The eagle" ⊆ wordSet "the EAGLE is a bird" ∧
    detect_hallucination "The eagle" "the EAGLE is a bird" = false :=
  ⟨by decide, (C4_lexical_overlap_checker "The eagle" "the EAGLE is a bird").2.2.1 (by decide)⟩

/-- C1: the layered grounding validator runs the lexical checker first; when
that checker reports a hallucination, the verdict is the ungrounded result
`True` for every pair of embeddings whatsoever (even embedding pairs on
which the embedding checker would raise), and the embedding checker is
invoked zero times; only when the lexical check passes is the embedding
check evaluated (invoked once, and the verdict is exactly its result); the
grounded verdict `False` occurs exactly when both checks pass. -/
theorem C1_layered_short_circuit (gt rt : String) (ge re : List ℝ) :
    (detect_hallucination gt rt = true →
      layered_detection gt rt ge re = Except.ok true ∧
      layered_embedCalls gt rt ge re = 0) ∧
    (detect_hallucination gt rt = false →
      layered_detection gt rt ge re = cosine_similarity_check ge re ∧
      layered_embedCalls gt rt ge re = 1) ∧
    (layered_detection gt rt ge re = Except.ok false ↔
      detect_hallucination gt rt = false ∧
      cosine_similarity_check ge re = Except.ok false) := by
  unfold layered_detection layered_embedCalls
  cases h : detect_hallucination gt rt <;> simp [h]

/-- C1 witness: on the scenario-2 pair the lexical stage fires, and the
verdict is `True` even though the supplied embeddings have mismatched
lengths (on which the embedding checker would raise): the embedding stage is
not consulted. -/
theorem C1_layered_short_circuit_witness :
    detect_hallucination "The eagle flies over the rainbow"
      "The eagle is a bird known for its strength." = true ∧
    layered_detection "The eagle flies over the rainbow"
      "The eagle is a bird known for its strength." [(0 : ℝ)] [0, 1] = Except.ok true ∧
    layered_embedCalls "The eagle flies over the rainbow"
      "The eagle is a bird known for its strength." [(0 : ℝ)] [0, 1] = 0 :=
  ⟨by decide,
    (C1_layered_short_circuit "The eagle flies over the rainbow"
      "The eagle is a bird known for its strength." [(0 : ℝ)] [0, 1]).1 (by decide)⟩

/-- C6: `prevent_hallucination` invokes the regeneration function at most
once — exactly once, applied to the reference text, when the layered
detection reports a hallucination, and never when the verdict is grounded;
the regenerated text is returned as-is (no re-validation, no retry loop),
and on a grounded verdict the original generated text is returned. -/
theorem C6_prevent_regenerates_at_most_once (gt rt : String) (ge re : List ℝ) :
    prevent_regenCalls gt rt ge re ≤ 1 ∧
    (layered_detection gt rt ge re = Except.ok false →
      prevent_hallucination gt rt ge re = Except.ok gt ∧
      prevent_regenCalls gt rt ge re = 0) ∧
    (layered_detection gt rt ge re = Except.ok true →
      prevent_hallucination gt rt ge re = Except.ok (regenerate_text rt) ∧
      prevent_regenCalls gt rt ge re = 1) ∧
    regenerate_text rt = rt := by
  unfold prevent_hallucination prevent_regenCalls
  cases h : layered_detection gt rt ge re with
  | error e => simp [h, regenerate_text]
  | ok b => cases b <;> simp [h, regenerate_text]

/-- C6 witness: a lexically hallucinated pair triggers exactly one
regeneration and returns the regenerated (reference) text as-is. -/
theorem C6_prevent_regenerates_at_most_once_witness :
    layered_detection "xyz" "" [(1 : ℝ)] [2] = Except.ok true ∧
    prevent_hallucination "xyz" "" [(1 : ℝ)] [2] = Except.ok (regenerate_text "") ∧
    prevent_regenCalls "xyz" "" [(1 : ℝ)] [2] = 1 := by
  have h : layered_detection "xyz" "" [(1 : ℝ)] [2] = Except.ok true := by
    unfold layered_detection
    rw [if_pos (show detect_hallucination "xyz" "" = true by decide)]
  exact ⟨h, (C6_prevent_regenerates_at_most_once "xyz" "" [(1 : ℝ)] [2]).2.2.1 h⟩

/-! ## Theorems: Stage-A chunking -/

lemma mem_dropLast_cons {α : Type} {c a : α} {l : List α} (h : c ∈ (a :: l).dropLast) :
    c = a ∨ c ∈ l.dropLast := by
  cases l with
  | nil => simp [List.dropLast_single] at h
  | cons y ys =>
    rw [List.dropLast_cons₂] at h
    rcases List.mem_cons.mp h with rfl | h'
    · exact Or.inl rfl
    · exact Or.inr h'

/-- Every chunk the loop emits before its final one has at least the
configured minimum length: a chunk is emitted early only when the join of
the accumulator has reached `min_chunk_size`. -/
lemma chunkLoop_dropLast (minSize : Nat) (rest : List String) :
    ∀ acc : List String, ∀ c ∈ (chunkLoop minSize acc rest).dropLast, minSize ≤ c.length := by
  induction rest with
  | nil =>
    intro acc c hc
    unfold chunkLoop at hc
    split at hc <;> simp [List.dropLast_single] at hc
  | cons s rest ih =>
    intro acc c hc
    unfold chunkLoop at hc
    split at hc
    case isTrue h =>
      rcases mem_dropLast_cons hc with rfl | hc'
      · exact h
      · exact ih [] c hc'
    case isFalse h => exact ih (acc ++ [s]) c hc

/-- The chunk loop covers exactly the sentences it was given: its output is
the space-join image of a partition of `acc ++ rest` into non-empty
consecutive sentence groups. -/
lemma chunkLoop_partition (minSize : Nat) (rest : List String) :
    ∀ acc : List String, ∃ P : List (List String),
      chunkLoop minSize acc rest = P.map joinSp ∧ P.flatten = acc ++ rest ∧
      ∀ p ∈ P, p ≠ [] := by
  induction rest with
  | nil =>
    intro acc
    by_cases h : acc.isEmpty
    · refine ⟨[], ?_, ?_, by simp⟩
      · unfold chunkLoop; rw [if_pos h]; rfl
      · simp [List.isEmpty_iff.mp h]
    · refine ⟨[acc], ?_, by simp, ?_⟩
      · unfold chunkLoop; rw [if_neg h]; rfl
      · intro p hp
        rw [List.mem_singleton] at hp
        subst hp
        exact List.isEmpty_eq_false.mp (Bool.not_eq_true _ ▸ eq_false_of_ne_true h)
  | cons s rest ih =>
    intro acc
    by_cases h : minSize ≤ (joinSp (acc ++ [s])).length
    · obtain ⟨P, hP1, hP2, hP3⟩ := ih []
      refine ⟨(acc ++ [s]) :: P, ?_, ?_, ?_⟩
      · unfold chunkLoop; rw [if_pos h, hP1]; rfl
      · simp only [List.flatten_cons, hP2, List.nil_append, List.append_assoc,
          List.singleton_append]
      · intro p hp
        rcases List.mem_cons.mp hp with rfl | hp'
        · simp
        · exact hP3 p hp'
    · obtain ⟨P, hP1, hP2, hP3⟩ := ih (acc ++ [s])
      refine ⟨P, ?_, ?_, hP3⟩
      · unfold chunkLoop; rw [if_neg h]; exact hP1
      · rw [hP2]; simp

/-- C9: the Stage-A chunks partition the sentence sequence: there is a list
of non-empty consecutive sentence groups whose concatenation is exactly the
original sentence sequence (nothing dropped, duplicated or reordered) and
whose space-joins are exactly the emitted chunks, in order. -/
theorem C9_stage_a_partition (minSize : Nat) (sentences : List String) :
    ∃ P : List (List String),
      chunk_text minSize sentences = P.map joinSp ∧
      P.flatten = sentences ∧ ∀ p ∈ P, p ≠ [] := by
  obtain ⟨P, h1, h2, h3⟩ := chunkLoop_partition minSize sentences []
  exact ⟨P, h1, by simpa using h2, h3⟩

/-- C9 witness: the partition at a concrete sentence list. -/
theorem C9_stage_a_partition_witness :
    ∃ P : List (List String),
      chunk_text 4 ["ab.", "cd.", "ef."] = P.map joinSp ∧
      P.flatten = ["ab.", "cd.", "ef."] ∧ ∀ p ∈ P, p ≠ [] :=
  C9_stage_a_partition 4 ["ab.", "cd.", "ef."]

/-- C5: Stage-A chunking emits a chunk exactly when the joined accumulator
reaches `min_chunk_size` (so every chunk except possibly the final one has
length at least `min_chunk_size`), and on a document of three 40-character
sentences with `min_chunk_size = 100` it emits one single chunk holding all
three sentences. -/
theorem C5_stage_a_grouping (minSize : Nat) (sentences : List String) (s1 s2 s3 : String)
    (h1 : s1.length = 40) (h2 : s2.length = 40) (h3 : s3.length = 40) :
    (∀ c ∈ (chunk_text minSize sentences).dropLast, minSize ≤ c.length) ∧
    chunk_text 100 [s1, s2, s3] = [s1 ++ " " ++ s2 ++ " " ++ s3] := by
  constructor
  · exact chunkLoop_dropLast minSize sentences []
  · have hsp : (" " : String).length = 1 := rfl
    have e1 : joinSp [s1] = s1 := rfl
    have e2 : joinSp [s1, s2] = s1 ++ " " ++ s2 := rfl
    have e3 : joinSp [s1, s2, s3] = s1 ++ " " ++ (s2 ++ " " ++ s3) := rfl
    have c1 : ¬ (100 ≤ (joinSp [s1]).length) := by
      rw [e1, h1]; omega
    have c2 : ¬ (100 ≤ (joinSp [s1, s2]).length) := by
      rw [e2, String.length_append, String.length_append, hsp, h1, h2]; omega
    have c3 : 100 ≤ (joinSp [s1, s2, s3]).length := by
      rw [e3, String.length_append, String.length_append, String.length_append,
        String.length_append, hsp, h1, h2, h3]; omega
    show chunkLoop 100 [] [s1, s2, s3] = _
    unfold chunkLoop
    rw [List.nil_append, if_neg c1]
    unfold chunkLoop
    rw [show [s1] ++ [s2] = [s1, s2] from rfl, if_neg c2]
    unfold chunkLoop
    rw [show [s1, s2] ++ [s3] = [s1, s2, s3] from rfl, if_pos c3]
    unfold chunkLoop
    rw [e3]
    simp [String.append_assoc]

/-- C5 witness: the general bound at one concrete input, and the
three-40-character-sentence scenario at concrete strings. -/
theorem C5_stage_a_grouping_witness :
    (∀ c ∈ (chunk_text 7 ["abc def.", "gh."]).dropLast, 7 ≤ c.length) ∧
    chunk_text 100
      ["aaaaaaaaaabbbbbbbbbbccccccccccdddddddddd",
       "eeeeeeeeeeffffffffffgggggggggghhhhhhhhhh",
       "iiiiiiiiiijjjjjjjjjjkkkkkkkkkkllllllllll"] =
      ["aaaaaaaaaabbbbbbbbbbccccccccccdddddddddd" ++ " " ++
        "eeeeeeeeeeffffffffffgggggggggghhhhhhhhhh" ++ " " ++
        "iiiiiiiiiijjjjjjjjjjkkkkkkkkkkllllllllll"] :=
  C5_stage_a_grouping 7 ["abc def.", "gh."]
    "aaaaaaaaaabbbbbbbbbbccccccccccdddddddddd"
    "eeeeeeeeeeffffffffffgggggggggghhhhhhhhhh"
    "iiiiiiiiiijjjjjjjjjjkkkkkkkkkkllllllllll"
    (by decide) (by decide) (by decide)

/-- C10: on a document from which the tokenizer yields zero sentences,
Stage A produces zero chunks and the semantic chunker as a whole fails with
the vectorizer's empty-input error (the realization of `EmptyDocument`)
rather than succeeding with a zero-chunk result. -/
theorem C10_empty_document_fails (minSize : Nat) :
    chunk_text minSize [] = [] ∧
    get_semantic_chunks minSize [] = Except.error VErr.emptyVocabulary := by
  constructor
  · rfl
  · rfl

/-- C10 witness: the failure at the default configuration. -/
theorem C10_empty_document_fails_witness :
    chunk_text 100 [] = [] ∧
    get_semantic_chunks 100 [] = Except.error VErr.emptyVocabulary :=
  C10_empty_document_fails 100

/-! ## Theorems: embedding similarity checker -/

lemma dot_nil_left (b : List ℝ) : dot [] b = 0 := rfl

lemma dot_nil_right (a : List ℝ) : dot a [] = 0 := by cases a <;> rfl

lemma dot_cons (x y : ℝ) (xs ys : List ℝ) :
    dot (x :: xs) (y :: ys) = x * y + dot xs ys := by
  unfold dot
  rw [List.zipWith_cons_cons, List.sum_cons]

lemma dot_self_nonneg (v : List ℝ) : 0 ≤ dot v v := by
  induction v with
  | nil => exact le_refl 0
  | cons x xs ih =>
    rw [dot_cons]
    have := mul_self_nonneg x
    linarith

lemma mul_self_le_dot_self {x : ℝ} {v : List ℝ} (h : x ∈ v) : x * x ≤ dot v v := by
  induction v with
  | nil => simp at h
  | cons y ys ih =>
    rw [dot_cons]
    rcases List.mem_cons.mp h with rfl | h'
    · have := dot_self_nonneg ys
      linarith
    · have := ih h'
      have := mul_self_nonneg y
      linarith

lemma dot_eq_zero_of_self {v : List ℝ} (h : dot v v = 0) : ∀ w : List ℝ, dot v w = 0 := by
  induction v with
  | nil => intro w; exact dot_nil_left w
  | cons x xs ih =>
    intro w
    rw [dot_cons] at h
    have hx2 : 0 ≤ x * x := mul_self_nonneg x
    have hxs : 0 ≤ dot xs xs := dot_self_nonneg xs
    have hx : x = 0 := mul_self_eq_zero.mp (by linarith)
    have hs : dot xs xs = 0 := by linarith
    cases w with
    | nil => exact dot_nil_right _
    | cons y ws =>
      rw [dot_cons, hx, ih hs ws]
      ring

lemma dot_eq_sum {a b : List ℝ} (h : a.length = b.length) :
    dot a b = ∑ i ∈ Finset.range a.length, a.getD i 0 * b.getD i 0 := by
  induction a generalizing b with
  | nil => simp [dot_nil_left]
  | cons x xs ih =>
    cases b with
    | nil => simp at h
    | cons y ys =>
      have h' : xs.length = ys.length := by simpa using h
      rw [dot_cons, ih h', List.length_cons, Finset.sum_range_succ']
      simp only [List.getD_cons_succ, List.getD_cons_zero]
      ring

/-- Cauchy-Schwarz for the list dot product. -/
lemma sq_dot_le {a b : List ℝ} (h : a.length = b.length) :
    (dot a b) ^ 2 ≤ dot a a * dot b b := by
  rw [dot_eq_sum h, dot_eq_sum (rfl : a.length = a.length),
    dot_eq_sum (rfl : b.length = b.length), ← h]
  have := Finset.sum_mul_sq_le_sq_mul_sq (Finset.range a.length)
    (fun i => a.getD i 0) (fun i => b.getD i 0)
  simpa [pow_two] using this

lemma abs_dot_le {a b : List ℝ} (h : a.length = b.length) :
    |dot a b| ≤ normOf a * normOf b := by
  have h1 := sq_dot_le h
  calc |dot a b| = Real.sqrt ((dot a b) ^ 2) := (Real.sqrt_sq_eq_abs _).symm
    _ ≤ Real.sqrt (dot a a * dot b b) := Real.sqrt_le_sqrt h1
    _ = normOf a * normOf b := Real.sqrt_mul (dot_self_nonneg a) _

lemma normOf_nonneg (a : List ℝ) : 0 ≤ normOf a := Real.sqrt_nonneg _

lemma dot_self_pos {a : List ℝ} (h : normOf a ≠ 0) : 0 < dot a a := by
  by_contra hle
  exact h (Real.sqrt_eq_zero'.mpr (le_of_not_lt hle))

lemma normOf_pos {a : List ℝ} (h : normOf a ≠ 0) : 0 < normOf a :=
  lt_of_le_of_ne (normOf_nonneg a) (Ne.symm h)

lemma nrmFactor_pos (a : List ℝ) : 0 < nrmFactor a := by
  unfold nrmFactor
  split
  · exact one_pos
  · exact normOf_pos (by assumption)

lemma nrmFactor_of_ne {a : List ℝ} (h : normOf a ≠ 0) : nrmFactor a = normOf a :=
  if_neg h

lemma normOf_nil : normOf [] = 0 := by
  unfold normOf
  rw [dot_nil_left, Real.sqrt_zero]

lemma ne_nil_of_normOf {a : List ℝ} (h : normOf a ≠ 0) : a ≠ [] := by
  intro hnil
  exact h (hnil ▸ normOf_nil)

lemma cosSim_self {a : List ℝ} (h : normOf a ≠ 0) : cosSim a a = 1 := by
  unfold cosSim
  rw [nrmFactor_of_ne h]
  rw [show normOf a * normOf a = dot a a from Real.mul_self_sqrt (dot_self_nonneg a)]
  exact div_self (ne_of_gt (dot_self_pos h))

lemma cosSim_abs_le {a b : List ℝ} (h : a.length = b.length)
    (ha : normOf a ≠ 0) (hb : normOf b ≠ 0) : |cosSim a b| ≤ 1 := by
  unfold cosSim
  rw [nrmFactor_of_ne ha, nrmFactor_of_ne hb, abs_div,
    abs_of_nonneg (mul_nonneg (normOf_nonneg a) (normOf_nonneg b))]
  exact (div_le_one (mul_pos (normOf_pos ha) (normOf_pos hb))).mpr (abs_dot_le h)

/-- C8: for non-degenerate equal-length vectors the checker's similarity is
`dot(a,b) / (normOf a * normOf b)`, that value lies in `[-1, 1]`, the checker
reports a hallucination exactly when the similarity is strictly below the
0.7 threshold, and on identical vectors the similarity is `1` so no
hallucination is reported. -/
theorem C8_cosine_similarity_behavior (a b : List ℝ) (hl : a.length = b.length)
    (ha : normOf a ≠ 0) (hb : normOf b ≠ 0) :
    cosSim a b = dot a b / (normOf a * normOf b) ∧
    -1 ≤ cosSim a b ∧ cosSim a b ≤ 1 ∧
    (cosine_similarity_check a b = Except.ok true ↔ cosSim a b < 0.7) ∧
    cosSim a a = 1 ∧
    cosine_similarity_check a a = Except.ok false := by
  have hae : a.isEmpty = false := List.isEmpty_eq_false.mpr (ne_nil_of_normOf ha)
  have hbe : b.isEmpty = false := List.isEmpty_eq_false.mpr (ne_nil_of_normOf hb)
  have hbounds := abs_le.mp (cosSim_abs_le hl ha hb)
  refine ⟨?_, hbounds.1, hbounds.2, ?_, cosSim_self ha, ?_⟩
  · unfold cosSim
    rw [nrmFactor_of_ne ha, nrmFactor_of_ne hb]
  · unfold cosine_similarity_check
    rw [if_neg (by rw [hae]; exact Bool.false_ne_true), if_neg (by rw [hbe]; exact Bool.false_ne_true),
      if_neg (show ¬ a.length ≠ b.length from fun hc => hc hl)]
    by_cases hc : cosSim a b < 0.7
    · simp [hc]
    · simp [hc]
  · unfold cosine_similarity_check
    rw [if_neg (by rw [hae]; exact Bool.false_ne_true), if_neg (by rw [hae]; exact Bool.false_ne_true),
      if_neg (show ¬ a.length ≠ a.length from fun hc => hc rfl)]
    rw [cosSim_self ha, if_neg (by norm_num)]

/-- C8 witness: the theorem at the concrete vectors `[1, 0]` and `[0, 1]`
(norm 1 each, similarity 0). -/
theorem C8_cosine_similarity_behavior_witness :
    normOf [(1 : ℝ), 0] ≠ 0 ∧ normOf [(0 : ℝ), 1] ≠ 0 ∧
    (cosSim [(1 : ℝ), 0] [(0 : ℝ), 1] =
        dot [(1 : ℝ), 0] [(0 : ℝ), 1] / (normOf [(1 : ℝ), 0] * normOf [(0 : ℝ), 1]) ∧
      -1 ≤ cosSim [(1 : ℝ), 0] [(0 : ℝ), 1] ∧ cosSim [(1 : ℝ), 0] [(0 : ℝ), 1] ≤ 1 ∧
      (cosine_similarity_check [(1 : ℝ), 0] [(0 : ℝ), 1] = Except.ok true ↔
        cosSim [(1 : ℝ), 0] [(0 : ℝ), 1] < 0.7) ∧
      cosSim [(1 : ℝ), 0] [(1 : ℝ), 0] = 1 ∧
      cosine_similarity_check [(1 : ℝ), 0] [(1 : ℝ), 0] = Except.ok false) := by
  have hda : dot [(1 : ℝ), 0] [(1 : ℝ), 0] = 1 := by
    rw [dot_cons, dot_cons, dot_nil_left]; ring
  have hdb : dot [(0 : ℝ), 1] [(0 : ℝ), 1] = 1 := by
    rw [dot_cons, dot_cons, dot_nil_left]; ring
  have ha : normOf [(1 : ℝ), 0] ≠ 0 := by
    unfold normOf; rw [hda, Real.sqrt_one]; exact one_ne_zero
  have hb : normOf [(0 : ℝ), 1] ≠ 0 := by
    unfold normOf; rw [hdb, Real.sqrt_one]; exact one_ne_zero
  exact ⟨ha, hb, C8_cosine_similarity_behavior [(1 : ℝ), 0] [(0 : ℝ), 1] rfl ha hb⟩

/-- C7 counterexample: `[0.0]` has zero magnitude, yet the checker does not
fail — sklearn's normalization silently treats the zero row as if it had
norm 1, yielding similarity 0.0 and therefore the value `hallucinated =
True` instead of a `DegenerateVector` error. -/
theorem C7_counterexample_zero_vector :
    normOf [(0 : ℝ)] = 0 ∧
    cosine_similarity_check [(0 : ℝ)] [(0 : ℝ)] = Except.ok true := by
  have hd : dot [(0 : ℝ)] [(0 : ℝ)] = 0 := by
    rw [dot_cons, dot_nil_left]; ring
  have hn : normOf [(0 : ℝ)] = 0 := by
    unfold normOf; rw [hd, Real.sqrt_zero]
  refine ⟨hn, ?_⟩
  unfold cosine_similarity_check
  rw [if_neg (show ¬ [(0 : ℝ)].isEmpty = true from by simp),
    if_neg (show ¬ [(0 : ℝ)].isEmpty = true from by simp),
    if_neg (show ¬ [(0 : ℝ)].length ≠ [(0 : ℝ)].length from fun hc => hc rfl)]
  have hc : cosSim [(0 : ℝ)] [(0 : ℝ)] = 0 := by
    unfold cosSim; rw [hd, zero_div]
  rw [hc, if_pos (by norm_num)]

/-- C7 amended: on vectors of different lengths (both non-empty) the checker
does fail with the dimension-mismatch error, and an empty vector fails with
the zero-features input-validation error; but a non-empty zero-magnitude
vector does NOT produce an error: the checker silently computes similarity
0.0 and returns `hallucinated = True`. -/
theorem C7_amended_error_behavior (ge re : List ℝ) :
    (ge ≠ [] → re ≠ [] → ge.length ≠ re.length →
      cosine_similarity_check ge re = Except.error SkErr.dimensionMismatch) ∧
    (ge = [] ∨ re = [] → cosine_similarity_check ge re = Except.error SkErr.zeroFeatures) ∧
    (ge ≠ [] → ge.length = re.length → normOf ge = 0 →
      cosine_similarity_check ge re = Except.ok true) := by
  refine ⟨?_, ?_, ?_⟩
  · intro hg hr hlen
    unfold cosine_similarity_check
    rw [if_neg (by rw [List.isEmpty_eq_false.mpr hg]; exact Bool.false_ne_true),
      if_neg (by rw [List.isEmpty_eq_false.mpr hr]; exact Bool.false_ne_true),
      if_pos hlen]
  · intro hor
    unfold cosine_similarity_check
    rcases hor with rfl | rfl
    · rw [if_pos (show (List.isEmpty ([] : List ℝ)) = true from rfl)]
    · by_cases hg : ge.isEmpty = true
      · rw [if_pos hg]
      · rw [if_neg hg, if_pos (show (List.isEmpty ([] : List ℝ)) = true from rfl)]
  · intro hg hlen hnorm
    have hr : re ≠ [] := by
      intro rfl'
      subst rfl'
      exact hg (List.length_eq_zero.mp hlen)
    have hd : dot ge re = 0 :=
      dot_eq_zero_of_self (le_antisymm (Real.sqrt_eq_zero'.mp hnorm) (dot_self_nonneg ge)) re
    unfold cosine_similarity_check
    rw [if_neg (by rw [List.isEmpty_eq_false.mpr hg]; exact Bool.false_ne_true),
      if_neg (by rw [List.isEmpty_eq_false.mpr hr]; exact Bool.false_ne_true),
      if_neg (show ¬ ge.length ≠ re.length from fun hc => hc hlen)]
    have hc : cosSim ge re = 0 := by
      unfold cosSim; rw [hd, zero_div]
    rw [hc, if_pos (by norm_num)]

/-- C7 amended witness: a concrete dimension mismatch does error. -/
theorem C7_amended_error_behavior_witness :
    [(1 : ℝ), 2] ≠ [] ∧ [(3 : ℝ)] ≠ [] ∧
    [(1 : ℝ), 2].length ≠ [(3 : ℝ)].length ∧
    cosine_similarity_check [(1 : ℝ), 2] [(3 : ℝ)] = Except.error SkErr.dimensionMismatch := by
  refine ⟨by simp, by simp, by simp, ?_⟩
  exact (C7_amended_error_behavior [(1 : ℝ), 2] [(3 : ℝ)]).1 (by simp) (by simp) (by simp)

/-! ## Theorems: Stage-B TF-IDF coherence filtering -/

lemma dot_map_div (v : List ℝ) (c : ℝ) :
    dot (v.map (fun x => x / c)) (v.map (fun x => x / c)) = dot v v / (c * c) := by
  induction v with
  | nil => simp [dot_nil_left]
  | cons x xs ih =>
    rw [List.map_cons, dot_cons, dot_cons, ih]
    field_simp

lemma normOf_l2normalize_ne {v : List ℝ} (h : normOf v ≠ 0) :
    normOf (l2normalize v) ≠ 0 := by
  have hq : 0 < dot (l2normalize v) (l2normalize v) := by
    unfold l2normalize
    rw [dot_map_div]
    exact div_pos (dot_self_pos h) (mul_pos (nrmFactor_pos v) (nrmFactor_pos v))
  unfold normOf
  exact ne_of_gt (Real.sqrt_pos.mpr hq)

lemma df_le_length (docs : List String) (t : String) : df docs t ≤ docs.length :=
  List.countP_le_length _

lemma idf_ge_one (docs : List String) (t : String) : 1 ≤ idf docs t := by
  unfold idf
  have h1 : (0 : ℝ) < 1 + (df docs t : ℝ) := by positivity
  have h2 : (1 : ℝ) + (df docs t : ℝ) ≤ 1 + (docs.length : ℝ) := by
    have := df_le_length docs t
    have : (df docs t : ℝ) ≤ (docs.length : ℝ) := by exact_mod_cast this
    linarith
  have := Real.log_nonneg ((one_le_div h1).mpr h2)
  linarith

lemma mem_tokens_vocabulary {docs : List String} {d t : String}
    (hd : d ∈ docs) (ht : t ∈ tokens d) : t ∈ vocabulary docs := by
  unfold vocabulary
  rw [List.mem_dedup, List.mem_flatten]
  exact ⟨tokens d, List.mem_map_of_mem tokens hd, ht⟩

/-- A document holding at least one valid token has a non-zero raw TF-IDF
row: its count entry is at least 1 and the smoothed idf is at least 1. -/
lemma tfidfRaw_normOf_ne {docs : List String} {d : String}
    (hd : d ∈ docs) (ht : tokens d ≠ []) : normOf (tfidfRaw docs d) ≠ 0 := by
  obtain ⟨t, htd⟩ := List.exists_mem_of_ne_nil _ ht
  have hv : t ∈ vocabulary docs := mem_tokens_vocabulary hd htd
  have hmem : ((tokens d).count t : ℝ) * idf docs t ∈ tfidfRaw docs d :=
    List.mem_map_of_mem (fun t => ((tokens d).count t : ℝ) * idf docs t) hv
  have hc : (1 : ℝ) ≤ ((tokens d).count t : ℝ) := by
    exact_mod_cast List.count_pos_iff.mpr htd
  have hi := idf_ge_one docs t
  have he : (1 : ℝ) ≤ ((tokens d).count t : ℝ) * idf docs t := by nlinarith
  have hdot : 0 < dot (tfidfRaw docs d) (tfidfRaw docs d) :=
    lt_of_lt_of_le (by nlinarith) (mul_self_le_dot_self hmem)
  unfold normOf
  exact ne_of_gt (Real.sqrt_pos.mpr hdot)

lemma tfidfRows_length (docs : List String) : (tfidfRows docs).length = docs.length := by
  unfold tfidfRows
  exact List.length_map docs _

lemma tfidfRows_getD {docs : List String} {i : Nat} (h : i < docs.length) :
    (tfidfRows docs).getD i [] = l2normalize (tfidfRaw docs (docs.getD i "")) := by
  unfold tfidfRows
  rw [List.getD_eq_getElem _ _ (by simpa using h), List.getElem_map,
    List.getD_eq_getElem _ _ h]

/-- Each row of every document with a valid token in the fitted TF-IDF
matrix is non-degenerate. -/
lemma tfidfRows_normOf_ne {docs : List String} {i : Nat} (h : i < docs.length)
    (ht : ∀ d ∈ docs, tokens d ≠ []) :
    normOf ((tfidfRows docs).getD i []) ≠ 0 := by
  rw [tfidfRows_getD h]
  have hmem : docs.getD i "" ∈ docs := by
    rw [List.getD_eq_getElem _ _ h]
    exact List.getElem_mem h
  exact normOf_l2normalize_ne (tfidfRaw_normOf_ne hmem (ht _ hmem))

lemma cosineMatrix_row {m : List (List ℝ)} {i : Nat} (h : i < m.length) :
    (cosineMatrix m).getD i [] = m.map (fun w => cosSim (m.getD i []) w) := by
  unfold cosineMatrix
  rw [List.getD_eq_getElem _ _ (by simpa using h), List.getElem_map,
    List.getD_eq_getElem _ _ h]

/-- The diagonal entry of row `i` of the cosine-similarity matrix is the
self-similarity of row `i` of the input matrix, which is `1` whenever that
row is non-degenerate. -/
lemma cosineMatrix_diag {m : List (List ℝ)} {i : Nat} (h : i < m.length)
    (hn : normOf (m.getD i []) ≠ 0) :
    ((cosineMatrix m).getD i []).getD i 0 = 1 := by
  rw [cosineMatrix_row h, List.getD_eq_getElem _ _ (by simpa using h), List.getElem_map,
    ← List.getD_eq_getElem m [] h]
  exact cosSim_self hn

/-- The diagonal self-similarity value is an entry of its row. -/
lemma cosineMatrix_diag_mem {m : List (List ℝ)} {i : Nat} (h : i < m.length) :
    cosSim (m.getD i []) (m.getD i []) ∈ (cosineMatrix m).getD i [] := by
  rw [cosineMatrix_row h]
  have : m.getD i [] ∈ m := by
    rw [List.getD_eq_getElem m [] h]
    exact List.getElem_mem h
  exact List.mem_map_of_mem _ this

lemma le_foldl_max (l : List ℝ) : ∀ init : ℝ, init ≤ l.foldl max init := by
  induction l with
  | nil => intro init; exact le_refl init
  | cons y ys ih =>
    intro init
    exact le_trans (le_max_left init y) (ih (max init y))

lemma le_npMax_of_mem {l : List ℝ} {x : ℝ} (h : x ∈ l) : x ≤ npMax l := by
  unfold npMax
  have : ∀ init : ℝ, x ≤ l.foldl max init := by
    induction l with
    | nil => simp at h
    | cons y ys ih =>
      intro init
      rcases List.mem_cons.mp h with rfl | h'
      · exact le_trans (le_max_right init x) (le_foldl_max ys (max init x))
      · exact ih h' (max init y)
  exact this _

/-- The retention loop, characterized: the retained chunks are exactly the
enumerated chunks whose index satisfies the literal decision rule
`i == 0 or np.max(cosine_sim[i-1]) < 0.5`. -/
lemma semanticFilter_eq_filter (sim : List (List ℝ)) :
    ∀ (cs : List String) (i : Nat),
      semanticFilter sim i cs =
        ((List.enumFrom i cs).filter
          (fun p => decide (p.1 = 0 ∨ npMax (sim.getD (p.1 - 1) []) < 0.5))).map
          Prod.snd := by
  intro cs
  induction cs with
  | nil => intro i; rfl
  | cons c cs ih =>
    intro i
    rw [List.enumFrom_cons, List.filter_cons]
    by_cases h : i = 0 ∨ npMax (sim.getD (i - 1) []) < 0.5
    · rw [if_pos (by simpa using h)]
      unfold semanticFilter
      rw [if_pos h, List.map_cons, ih (i + 1)]
    · rw [if_neg (by simpa using h)]
      unfold semanticFilter
      rw [if_neg h, ih (i + 1)]

/-- Once past index 0, the retention loop drops every chunk whose
predecessor row fails the similarity test. -/
lemma semanticFilter_drop (sim : List (List ℝ)) :
    ∀ (cs : List String) (i : Nat), 1 ≤ i →
      (∀ j, i ≤ j → j < i + cs.length → ¬ npMax (sim.getD (j - 1) []) < 0.5) →
      semanticFilter sim i cs = [] := by
  intro cs
  induction cs with
  | nil => intro i _ _; rfl
  | cons c cs ih =>
    intro i hi hcond
    unfold semanticFilter
    rw [if_neg]
    · exact ih (i + 1) (by omega) (fun j hj1 hj2 => hcond j (by omega)
        (by rw [List.length_cons]; omega))
    · rintro (rfl | hlt)
      · omega
      · exact hcond i (le_refl i) (by rw [List.length_cons]; omega) hlt

/-- C2 counterexample: on the document whose single sentence is just two
one-letter words, Stage A yields one chunk (so the claim asserts chunk 0 is
retained in the semantic output), but Stage B raises the vectorizer's
empty-vocabulary error instead of producing any output. -/
theorem C2_counterexample_empty_vocabulary :
    chunk_text 100 ["x y."] = ["x y."] ∧
    vocabulary ["x y."] = [] ∧
    get_semantic_chunks 100 ["x y."] = Except.error VErr.emptyVocabulary ∧
    get_semantic_chunks 100 ["x y."] ≠ Except.ok ["x y."] := by
  have hchunk : chunk_text 100 ["x y."] = ["x y."] := by decide
  have hvoc : vocabulary ["x y."] = [] := by decide
  have herr : get_semantic_chunks 100 ["x y."] = Except.error VErr.emptyVocabulary := by
    unfold get_semantic_chunks
    rw [hchunk, show fit_transform ["x y."] = Except.error VErr.emptyVocabulary from by
      unfold fit_transform; rw [if_pos hvoc]]
  refine ⟨hchunk, hvoc, herr, ?_⟩
  rw [herr]
  simp

/-- C2 amended: provided some Stage-A chunk contains a token of at least
two word characters (so the jointly fitted vocabulary is non-empty and
Stage B runs instead of raising), the semantic output retains chunk `i`
exactly when `i = 0` or the maximum of row `i-1` of the pairwise TF-IDF
cosine-similarity matrix — the maximum over all columns, with the TF-IDF
model fit over the full Stage-A chunk set of this one call — is strictly
below 0.5. -/
theorem C2_amended_retention_rule (minSize : Nat) (sentences : List String)
    (h : vocabulary (chunk_text minSize sentences) ≠ []) :
    get_semantic_chunks minSize sentences =
      Except.ok
        ((((chunk_text minSize sentences).enum).filter
          (fun p => decide (p.1 = 0 ∨
            npMax ((cosineMatrix (tfidfRows (chunk_text minSize sentences))).getD
              (p.1 - 1) []) < 0.5))).map Prod.snd) := by
  unfold get_semantic_chunks
  rw [show fit_transform (chunk_text minSize sentences) =
      Except.ok (tfidfRows (chunk_text minSize sentences)) from by
    unfold fit_transform; rw [if_neg h]]
  exact congrArg Except.ok
    (semanticFilter_eq_filter (cosineMatrix (tfidfRows (chunk_text minSize sentences)))
      (chunk_text minSize sentences) 0)

/-- C2 witness: the characterization at a concrete one-chunk document with
a non-empty vocabulary. -/
theorem C2_amended_retention_rule_witness :
    vocabulary (chunk_text 100 ["ab cd."]) ≠ [] ∧
    get_semantic_chunks 100 ["ab cd."] =
      Except.ok
        ((((chunk_text 100 ["ab cd."]).enum).filter
          (fun p => decide (p.1 = 0 ∨
            npMax ((cosineMatrix (tfidfRows (chunk_text 100 ["ab cd."]))).getD
              (p.1 - 1) []) < 0.5))).map Prod.snd) :=
  ⟨by decide, C2_amended_retention_rule 100 ["ab cd."] (by decide)⟩

/-- C3 counterexample: the document whose single sentence is `a.` yields
one Stage-A chunk, yet `get_semantic_chunks` does not return the singleton
first chunk — the chunk has no two-character token, so the vectorizer
raises its empty-vocabulary error. -/
theorem C3_counterexample_single_letter_chunk :
    chunk_text 100 ["a."] = ["a."] ∧
    get_semantic_chunks 100 ["a."] = Except.error VErr.emptyVocabulary ∧
    get_semantic_chunks 100 ["a."] ≠ Except.ok ["a."] := by
  have hchunk : chunk_text 100 ["a."] = ["a."] := by decide
  have hvoc : vocabulary ["a."] = [] := by decide
  have herr : get_semantic_chunks 100 ["a."] = Except.error VErr.emptyVocabulary := by
    unfold get_semantic_chunks
    rw [hchunk, show fit_transform ["a."] = Except.error VErr.emptyVocabulary from by
      unfold fit_transform; rw [if_pos hvoc]]
  refine ⟨hchunk, herr, ?_⟩
  rw [herr]
  simp

/-- C3 amended: whenever Stage-A chunking yields at least one chunk and
every chunk contains at least one token of two or more word characters,
every diagonal entry of the pairwise cosine-similarity matrix equals 1, so
for every `i ≥ 1` the maximum of row `i-1` is at least 1 and the retention
condition `max(row i-1) < 0.5` fails; `get_semantic_chunks` therefore
returns exactly the singleton list holding the first Stage-A chunk. -/
theorem C3_amended_first_chunk_only (minSize : Nat) (sentences : List String)
    (c : String) (cs : List String)
    (h1 : chunk_text minSize sentences = c :: cs)
    (h2 : ∀ ch ∈ c :: cs, tokens ch ≠ []) :
    (∀ i, i < (c :: cs).length →
      ((cosineMatrix (tfidfRows (c :: cs))).getD i []).getD i 0 = 1) ∧
    get_semantic_chunks minSize sentences = Except.ok [c] := by
  have hrows : ∀ i, i < (c :: cs).length →
      normOf ((tfidfRows (c :: cs)).getD i []) ≠ 0 := by
    intro i hi
    exact tfidfRows_normOf_ne hi h2
  have hdiag : ∀ i, i < (c :: cs).length →
      ((cosineMatrix (tfidfRows (c :: cs))).getD i []).getD i 0 = 1 := by
    intro i hi
    exact cosineMatrix_diag (by rw [tfidfRows_length]; exact hi) (hrows i hi)
  refine ⟨hdiag, ?_⟩
  have hvoc : vocabulary (c :: cs) ≠ [] := by
    obtain ⟨t, ht⟩ := List.exists_mem_of_ne_nil _ (h2 c (List.mem_cons_self c cs))
    exact List.ne_nil_of_mem (mem_tokens_vocabulary (List.mem_cons_self c cs) ht)
  unfold get_semantic_chunks
  rw [h1, show fit_transform (c :: cs) = Except.ok (tfidfRows (c :: cs)) from by
    unfold fit_transform; rw [if_neg hvoc]]
  have htail : semanticFilter (cosineMatrix (tfidfRows (c :: cs))) 1 cs = [] := by
    apply semanticFilter_drop _ cs 1 (le_refl 1)
    intro j hj1 hj2 hlt
    have hjm : j - 1 < (c :: cs).length := by
      rw [List.length_cons]; omega
    have hjr : j - 1 < (tfidfRows (c :: cs)).length := by
      rw [tfidfRows_length]; exact hjm
    have hone : (1 : ℝ) ≤ npMax ((cosineMatrix (tfidfRows (c :: cs))).getD (j - 1) []) := by
      have hm := cosineMatrix_diag_mem hjr
      rw [cosSim_self (hrows (j - 1) hjm)] at hm
      exact le_npMax_of_mem hm
    exact absurd (lt_of_le_of_lt hone hlt) (by norm_num)
  show Except.ok (semanticFilter (cosineMatrix (tfidfRows (c :: cs))) 0 (c :: cs)) = _
  unfold semanticFilter
  rw [if_pos (Or.inl rfl), htail]

/-- C3 witness: a concrete two-chunk document in which every chunk has
valid tokens; only the first chunk survives. -/
theorem C3_amended_first_chunk_only_witness :
    chunk_text 5 ["ab cd.", "ef gh."] = "ab cd." :: ["ef gh."] ∧
    (∀ ch ∈ "ab cd." :: ["ef gh."], tokens ch ≠ []) ∧
    ((∀ i, i < ("ab cd." :: ["ef gh."]).length →
      ((cosineMatrix (tfidfRows ("ab cd." :: ["ef gh."]))).getD i []).getD i 0 = 1) ∧
    get_semantic_chunks 5 ["ab cd.", "ef gh."] = Except.ok ["ab cd."]) :=
  ⟨by decide, by decide,
    C3_amended_first_chunk_only 5 ["ab cd.", "ef gh."] "ab cd." ["ef gh."]
      (by decide) (by decide)⟩

end NlpRag
